import Mathlib

/-!
Verification of BayesFlow diagnostics and deep_bayes training loops.

Shallow embedding of `src/deep_bayes/training.py` and
`src/bayesflow/diagnostics.py`.  Numeric array entries are modelled as
exact rationals (the claims under study are exact-arithmetic properties);
the Euclidean norm used by gradient clipping is modelled over the reals.
Python-level failures (IndexError, AttributeError, ...) are modelled with
an `Except` monad over an explicit error type.
-/

namespace DeepBayes

/-! Training-loop model (`deep_bayes/training.py`).

`train_online` and `train_offline` are driven by external collaborators
(the model forward pass, the loss function, the TensorFlow gradient tape,
the optimizer).  Those collaborators are abstracted as functions in a
configuration record; the loop control logic, the loss dictionary, the
regularization penalty (`tf.add_n(model.losses) if model.losses else 0.`),
the clipping selection and the running-loss smoothing are embedded literally.
-/

/-- The history dictionary `losses` of the Python code: an association
list from string keys to lists of recorded scalars. -/
abbrev LossDict := List (String × List ℚ)

/-- The initial dictionary with keys loss and regularization, both empty. -/
def initLosses : LossDict := [("loss", []), ("regularization", [])]

/-- Lookup `d[k]` for the loss dictionary (total lookup; both uses in the code
are on keys present in the dictionary). -/
def dictGet (d : LossDict) (k : String) : List ℚ :=
  ((d.find? (fun p => p.1 == k)).map Prod.snd).getD []

/-- Append `d[k].append(v)` on the loss dictionary. -/
def dictAppend (d : LossDict) (k : String) (v : ℚ) : LossDict :=
  d.map (fun p => if p.1 = k then (p.1, p.2 ++ [v]) else p)

/-- Python slice `l[-n:]`: the last `n` elements, the whole list when
`n = 0` (since `l[-0:] = l[0:]`). -/
def slice_last (l : List ℚ) (n : ℕ) : List ℚ :=
  if n = 0 then l else l.drop (l.length - n)

/-- Mean `np.mean` of a list of scalars. -/
def npMean (l : List ℚ) : ℚ := l.sum / (l.length : ℚ)

/-- Observable state of one training run: the `losses` dictionary that is
returned, plus traces of the gradients produced by `tape.gradient`, the
gradients handed to `apply_gradients`, and the `running_loss` values
computed for the progress reporter (one per iteration of `train_online`). -/
structure TState where
  losses : LossDict
  rawGrads : List (List ℚ)
  appliedGrads : List (List ℚ)
  running : List ℚ
deriving Repr

/-- Configuration of `train_online`, abstracting the external
collaborators: `lossAt it` is the value of `loss_fun` at (1-based)
iteration `it`, `modelLossesAt it` is the list `model.losses` at that
iteration, `gradientOf t` is `tape.gradient(t, model.trainable_variables)`,
`clipFn g c` is `clip_gradients(g, c, clip_method)`. -/
structure TrainCfg where
  lossAt : ℕ → ℚ
  modelLossesAt : ℕ → List ℚ
  gradientOf : ℚ → List ℚ
  clip_value : Option ℚ
  clipFn : List ℚ → ℚ → List ℚ
  n_smooth : ℕ

/-- Lines 79-80: `if clip_value is not None: gradients = clip_gradients(...)`. -/
def clipSel (cfg : TrainCfg) (g : List ℚ) : List ℚ :=
  match cfg.clip_value with
  | none => g
  | some c => cfg.clipFn g c

/-- One iteration of the `train_online` loop body (`it` is the 1-based
iteration counter of `for it in range(1, iterations+1)`). -/
def onlineStep (cfg : TrainCfg) (st : TState) (it : ℕ) : TState :=
  let loss := cfg.lossAt it
  let w_decay := if cfg.modelLossesAt it = [] then 0 else (cfg.modelLossesAt it).sum
  let total_loss := loss + w_decay
  let gradients := cfg.gradientOf total_loss
  let gradients' := clipSel cfg gradients
  let losses1 := dictAppend st.losses "regularization" w_decay
  let losses2 := dictAppend losses1 "loss" loss
  let running_loss :=
    if it < cfg.n_smooth then loss else npMean (slice_last (dictGet losses2 "loss") cfg.n_smooth)
  { losses := losses2
    rawGrads := st.rawGrads ++ [gradients]
    appliedGrads := st.appliedGrads ++ [gradients']
    running := st.running ++ [running_loss] }

/-- Loop `train_online(model, optimizer, data_gen, loss_fun, iterations, ...)`:
runs `iterations` loop iterations starting from the empty history. -/
def train_online (cfg : TrainCfg) (iterations : ℕ) : TState :=
  (List.range iterations).foldl (fun st k => onlineStep cfg st (k + 1)) ⟨initLosses, [], [], []⟩

/-- Configuration of `train_offline` over batches of type `β`:
`lossOf b` is the value of `loss_fun` on the model outputs for batch `b`. -/
structure OfflineCfg (β : Type) where
  lossOf : β → ℚ
  modelLossesAt : ℕ → List ℚ
  gradientOf : ℚ → List ℚ
  clip_value : Option ℚ
  clipFn : List ℚ → ℚ → List ℚ

/-- Clipping selection of `train_offline` (lines 153-155). -/
def clipSelOff {β : Type} (cfg : OfflineCfg β) (g : List ℚ) : List ℚ :=
  match cfg.clip_value with
  | none => g
  | some c => cfg.clipFn g c

/-- One iteration of the `train_offline` loop body (`bi` is the 0-based
batch index of `for bi, batch in enumerate(dataset)`). -/
def offlineStep {β : Type} (cfg : OfflineCfg β) (st : TState) (bi : ℕ) (batch : β) : TState :=
  let loss := cfg.lossOf batch
  let w_decay := if cfg.modelLossesAt bi = [] then 0 else (cfg.modelLossesAt bi).sum
  let total_loss := loss + w_decay
  let gradients := cfg.gradientOf total_loss
  let gradients' := clipSelOff cfg gradients
  let losses1 := dictAppend st.losses "regularization" w_decay
  let losses2 := dictAppend losses1 "loss" loss
  { losses := losses2
    rawGrads := st.rawGrads ++ [gradients]
    appliedGrads := st.appliedGrads ++ [gradients']
    running := st.running }

/-- Loop `for bi, batch in enumerate(dataset)`: structural recursion over the
dataset, threading the batch index. -/
def offlineGo {β : Type} (cfg : OfflineCfg β) : ℕ → TState → List β → TState
  | _, st, [] => st
  | bi, st, b :: bs => offlineGo cfg (bi + 1) (offlineStep cfg st bi b) bs

/-- Loop `train_offline(model, optimizer, dataset, loss_fun, ...)`: one pass
over the dataset starting from the empty history. -/
def train_offline {β : Type} (cfg : OfflineCfg β) (dataset : List β) : TState :=
  offlineGo cfg 0 ⟨initLosses, [], [], []⟩ dataset

/-! Evaluation lemmas for the dictionary operations. -/

lemma dictAppend_reg (L R : List ℚ) (v : ℚ) :
    dictAppend [("loss", L), ("regularization", R)] "regularization" v =
      [("loss", L), ("regularization", R ++ [v])] := by
  simp [dictAppend]

lemma dictAppend_loss (L R : List ℚ) (v : ℚ) :
    dictAppend [("loss", L), ("regularization", R)] "loss" v =
      [("loss", L ++ [v]), ("regularization", R)] := by
  simp [dictAppend]

lemma dictGet_loss (L R : List ℚ) :
    dictGet [("loss", L), ("regularization", R)] "loss" = L := by
  simp [dictGet]

lemma dictGet_reg (L R : List ℚ) :
    dictGet [("loss", L), ("regularization", R)] "regularization" = R := by
  simp [dictGet, List.find?]

lemma if_empty_sum (l : List ℚ) : (if l = [] then (0 : ℚ) else l.sum) = l.sum := by
  cases l <;> simp

/-! Closed-form traces of the training loops. -/

/-- Losses recorded by `train_online` after `n` iterations. -/
def lossTrace (cfg : TrainCfg) (n : ℕ) : List ℚ :=
  (List.range n).map (fun k => cfg.lossAt (k + 1))

/-- Regularization penalties recorded by `train_online` after `n` iterations. -/
def regTrace (cfg : TrainCfg) (n : ℕ) : List ℚ :=
  (List.range n).map (fun k => (cfg.modelLossesAt (k + 1)).sum)

/-- Gradients produced by `tape.gradient` in `train_online`. -/
def rawTrace (cfg : TrainCfg) (n : ℕ) : List (List ℚ) :=
  (List.range n).map (fun k => cfg.gradientOf (cfg.lossAt (k + 1) + (cfg.modelLossesAt (k + 1)).sum))

/-- Gradients handed to `apply_gradients` in `train_online`. -/
def appTrace (cfg : TrainCfg) (n : ℕ) : List (List ℚ) :=
  (rawTrace cfg n).map (clipSel cfg)

/-- Running-loss values computed for the progress reporter in `train_online`. -/
def runTrace (cfg : TrainCfg) (n : ℕ) : List ℚ :=
  (List.range n).map (fun k =>
    if k + 1 < cfg.n_smooth then cfg.lossAt (k + 1)
    else npMean (slice_last (lossTrace cfg (k + 1)) cfg.n_smooth))

lemma lossTrace_succ (cfg : TrainCfg) (n : ℕ) :
    lossTrace cfg (n + 1) = lossTrace cfg n ++ [cfg.lossAt (n + 1)] := by
  simp [lossTrace, List.range_succ]

lemma regTrace_succ (cfg : TrainCfg) (n : ℕ) :
    regTrace cfg (n + 1) = regTrace cfg n ++ [(cfg.modelLossesAt (n + 1)).sum] := by
  simp [regTrace, List.range_succ]

lemma rawTrace_succ (cfg : TrainCfg) (n : ℕ) :
    rawTrace cfg (n + 1) =
      rawTrace cfg n ++ [cfg.gradientOf (cfg.lossAt (n + 1) + (cfg.modelLossesAt (n + 1)).sum)] := by
  simp [rawTrace, List.range_succ]

lemma appTrace_succ (cfg : TrainCfg) (n : ℕ) :
    appTrace cfg (n + 1) =
      appTrace cfg n ++
        [clipSel cfg (cfg.gradientOf (cfg.lossAt (n + 1) + (cfg.modelLossesAt (n + 1)).sum))] := by
  simp [appTrace, rawTrace_succ]

lemma runTrace_succ (cfg : TrainCfg) (n : ℕ) :
    runTrace cfg (n + 1) =
      runTrace cfg n ++
        [if n + 1 < cfg.n_smooth then cfg.lossAt (n + 1)
         else npMean (slice_last (lossTrace cfg (n + 1)) cfg.n_smooth)] := by
  simp [runTrace, List.range_succ]

lemma train_online_succ (cfg : TrainCfg) (n : ℕ) :
    train_online cfg (n + 1) = onlineStep cfg (train_online cfg n) (n + 1) := by
  simp [train_online, List.range_succ]

lemma onlineStep_eval (cfg : TrainCfg) (it : ℕ) (L R : List ℚ) (G A : List (List ℚ))
    (U : List ℚ) :
    onlineStep cfg ⟨[("loss", L), ("regularization", R)], G, A, U⟩ it =
      ⟨[("loss", L ++ [cfg.lossAt it]),
        ("regularization", R ++ [(cfg.modelLossesAt it).sum])],
       G ++ [cfg.gradientOf (cfg.lossAt it + (cfg.modelLossesAt it).sum)],
       A ++ [clipSel cfg (cfg.gradientOf (cfg.lossAt it + (cfg.modelLossesAt it).sum))],
       U ++ [if it < cfg.n_smooth then cfg.lossAt it
             else npMean (slice_last (L ++ [cfg.lossAt it]) cfg.n_smooth)]⟩ := by
  simp only [onlineStep, if_empty_sum, dictAppend_reg, dictAppend_loss, dictGet_loss]

/-- Master characterization of `train_online`: the full observable state
after `n` iterations, componentwise. -/
theorem train_online_trace (cfg : TrainCfg) (n : ℕ) :
    train_online cfg n =
      ⟨[("loss", lossTrace cfg n), ("regularization", regTrace cfg n)],
       rawTrace cfg n, appTrace cfg n, runTrace cfg n⟩ := by
  induction n with
  | zero => rfl
  | succ n ih =>
    rw [train_online_succ, ih, onlineStep_eval, lossTrace_succ, regTrace_succ, rawTrace_succ,
      appTrace_succ, runTrace_succ, lossTrace_succ]

/-- Losses recorded by `train_offline` over a batch list. -/
def offLossTrace {β : Type} (cfg : OfflineCfg β) : List β → List ℚ
  | [] => []
  | b :: bs => cfg.lossOf b :: offLossTrace cfg bs

/-- Regularization penalties recorded by `train_offline`, starting at
batch index `bi`. -/
def offRegTrace {β : Type} (cfg : OfflineCfg β) : ℕ → List β → List ℚ
  | _, [] => []
  | bi, _ :: bs => (cfg.modelLossesAt bi).sum :: offRegTrace cfg (bi + 1) bs

/-- Gradients produced by `tape.gradient` in `train_offline`, starting at
batch index `bi`. -/
def offRawTrace {β : Type} (cfg : OfflineCfg β) : ℕ → List β → List (List ℚ)
  | _, [] => []
  | bi, b :: bs =>
    cfg.gradientOf (cfg.lossOf b + (cfg.modelLossesAt bi).sum) :: offRawTrace cfg (bi + 1) bs

lemma offlineStep_eval {β : Type} (cfg : OfflineCfg β) (bi : ℕ) (b : β) (L R : List ℚ)
    (G A : List (List ℚ)) (U : List ℚ) :
    offlineStep cfg ⟨[("loss", L), ("regularization", R)], G, A, U⟩ bi b =
      ⟨[("loss", L ++ [cfg.lossOf b]),
        ("regularization", R ++ [(cfg.modelLossesAt bi).sum])],
       G ++ [cfg.gradientOf (cfg.lossOf b + (cfg.modelLossesAt bi).sum)],
       A ++ [clipSelOff cfg (cfg.gradientOf (cfg.lossOf b + (cfg.modelLossesAt bi).sum))],
       U⟩ := by
  simp only [offlineStep, if_empty_sum, dictAppend_reg, dictAppend_loss]

lemma offlineGo_trace {β : Type} (cfg : OfflineCfg β) (ds : List β) :
    ∀ (bi : ℕ) (L R : List ℚ) (G A : List (List ℚ)) (U : List ℚ),
      offlineGo cfg bi ⟨[("loss", L), ("regularization", R)], G, A, U⟩ ds =
        ⟨[("loss", L ++ offLossTrace cfg ds),
          ("regularization", R ++ offRegTrace cfg bi ds)],
         G ++ offRawTrace cfg bi ds,
         A ++ (offRawTrace cfg bi ds).map (clipSelOff cfg),
         U⟩ := by
  induction ds with
  | nil => intro bi L R G A U; simp [offlineGo, offLossTrace, offRegTrace, offRawTrace]
  | cons b bs ih =>
    intro bi L R G A U
    simp only [offlineGo, offlineStep_eval, ih, offLossTrace, offRegTrace, offRawTrace,
      List.map_cons, List.append_assoc, List.cons_append, List.singleton_append,
      List.nil_append]

/-- Master characterization of `train_offline`: the full observable state
after one pass over the dataset. -/
theorem train_offline_trace {β : Type} (cfg : OfflineCfg β) (ds : List β) :
    train_offline cfg ds =
      ⟨[("loss", offLossTrace cfg ds), ("regularization", offRegTrace cfg 0 ds)],
       offRawTrace cfg 0 ds, (offRawTrace cfg 0 ds).map (clipSelOff cfg), []⟩ := by
  have h := offlineGo_trace cfg ds 0 [] [] [] [] []
  simpa [train_offline, initLosses] using h

lemma offLossTrace_length {β : Type} (cfg : OfflineCfg β) (ds : List β) :
    (offLossTrace cfg ds).length = ds.length := by
  induction ds with
  | nil => rfl
  | cons b bs ih => simp [offLossTrace, ih]

lemma offRegTrace_length {β : Type} (cfg : OfflineCfg β) (ds : List β) :
    ∀ bi, (offRegTrace cfg bi ds).length = ds.length := by
  induction ds with
  | nil => intro bi; rfl
  | cons b bs ih => intro bi; simp [offRegTrace, ih]

lemma offRawTrace_enumFrom {β : Type} (cfg : OfflineCfg β) (ds : List β) :
    ∀ bi, offRawTrace cfg bi ds =
      (ds.enumFrom bi).map (fun p => cfg.gradientOf (cfg.lossOf p.2 + (cfg.modelLossesAt p.1).sum)) := by
  induction ds with
  | nil => intro bi; rfl
  | cons b bs ih => intro bi; simp [offRawTrace, List.enumFrom, ih]

lemma offRegTrace_enumFrom {β : Type} (cfg : OfflineCfg β) (ds : List β) :
    ∀ bi, offRegTrace cfg bi ds =
      (ds.enumFrom bi).map (fun p => (cfg.modelLossesAt p.1).sum) := by
  induction ds with
  | nil => intro bi; rfl
  | cons b bs ih => intro bi; simp [offRegTrace, List.enumFrom, ih]

/-! Claim theorems about the training loops. -/

/-- Concrete configuration exhibiting the running-loss discrepancy: two
iterations with losses `0` and `1`, default smoothing window `100`. -/
def cfgC1 : TrainCfg :=
  { lossAt := fun it => if it = 1 then 0 else 1
    modelLossesAt := fun _ => []
    gradientOf := fun _ => []
    clip_value := none
    clipFn := fun g _ => g
    n_smooth := 100 }

/-- C1 (counterexample): at iteration `it = 2` with `n_smooth = 100` and
recorded losses `[0, 1]`, the running loss reported to the progress
reporter is the raw current loss `1`, not the arithmetic mean `1/2` of the
last `min(n_smooth, it) = 2` recorded losses, refuting the claim. -/
theorem running_loss_not_window_mean :
    (train_online cfgC1 2).running.getD 1 0 ≠
      npMean (slice_last (dictGet (train_online cfgC1 2).losses "loss") (min 100 2)) := by
  have hL : (train_online cfgC1 2).running.getD 1 0 = 1 := by rfl
  have hR : slice_last (dictGet (train_online cfgC1 2).losses "loss") (min 100 2) = [0, 1] := by
    rfl
  rw [hL, hR]
  norm_num [npMean]

/-- C1 (amended): the running loss computed for the progress reporter at
iteration `it = k + 1` equals the raw current loss while `it < n_smooth`,
and the arithmetic mean of the last `n_smooth` recorded losses once
`it ≥ n_smooth`. -/
theorem train_online_running_loss (cfg : TrainCfg) (n : ℕ) :
    (train_online cfg n).running =
      (List.range n).map (fun k =>
        if k + 1 < cfg.n_smooth then cfg.lossAt (k + 1)
        else npMean (slice_last (dictGet (train_online cfg (k + 1)).losses "loss")
          cfg.n_smooth)) := by
  have hf : ∀ k : ℕ,
      dictGet (train_online cfg (k + 1)).losses "loss" = lossTrace cfg (k + 1) := by
    intro k; rw [train_online_trace, dictGet_loss]
  simp only [train_online_trace, dictGet_loss, runTrace, hf]

/-- C2: the returned history has exactly the keys `loss` and
`regularization`; after `train_online` both lists have length
`iterations`, and after `train_offline` both have length equal to the
number of batches in the dataset, which is traversed exactly once. -/
theorem train_history_keys_and_lengths {β : Type} (cfg : TrainCfg) (n : ℕ)
    (ocfg : OfflineCfg β) (ds : List β) :
    (train_online cfg n).losses.map Prod.fst = ["loss", "regularization"] ∧
    (dictGet (train_online cfg n).losses "loss").length = n ∧
    (dictGet (train_online cfg n).losses "regularization").length = n ∧
    (train_offline ocfg ds).losses.map Prod.fst = ["loss", "regularization"] ∧
    (dictGet (train_offline ocfg ds).losses "loss").length = ds.length ∧
    (dictGet (train_offline ocfg ds).losses "regularization").length = ds.length := by
  refine ⟨?_, ?_, ?_, ?_, ?_, ?_⟩ <;>
    simp [train_online_trace, train_offline_trace, dictGet_loss, dictGet_reg,
      lossTrace, regTrace, offLossTrace_length, offRegTrace_length]

/-- C5: in every iteration of both loops the regularization penalty equals
the sum of the model-declared auxiliary losses (`List.replicate n 0`, i.e.
zero, when none are declared), and the quantity handed to `tape.gradient`
is the task loss plus that penalty. -/
theorem train_regularization_and_total_loss {β : Type} (cfg : TrainCfg) (n : ℕ)
    (ocfg : OfflineCfg β) (ds : List β) :
    (train_online cfg n).rawGrads =
      (List.range n).map (fun k =>
        cfg.gradientOf (cfg.lossAt (k + 1) + (cfg.modelLossesAt (k + 1)).sum)) ∧
    dictGet (train_online cfg n).losses "regularization" =
      (List.range n).map (fun k => (cfg.modelLossesAt (k + 1)).sum) ∧
    dictGet (train_online { cfg with modelLossesAt := fun _ => [] } n).losses "regularization" =
      List.replicate n 0 ∧
    (train_offline ocfg ds).rawGrads =
      ds.enum.map (fun p => ocfg.gradientOf (ocfg.lossOf p.2 + (ocfg.modelLossesAt p.1).sum)) ∧
    dictGet (train_offline ocfg ds).losses "regularization" =
      ds.enum.map (fun p => (ocfg.modelLossesAt p.1).sum) ∧
    dictGet (train_offline { ocfg with modelLossesAt := fun _ => [] } ds).losses
        "regularization" = List.replicate ds.length 0 := by
  refine ⟨?_, ?_, ?_, ?_, ?_, ?_⟩ <;>
    simp [train_online_trace, train_offline_trace, dictGet_reg, rawTrace, regTrace,
      List.enum, offRawTrace_enumFrom, offRegTrace_enumFrom, List.map_const']

/-- C7: the gradients handed to the optimizer are the clipped gradients
exactly when `clip_value` is not `None`, and the raw gradients unmodified
when `clip_value` is `None`, in both training loops. -/
theorem train_clip_selection {β : Type} (cfg : TrainCfg) (n : ℕ) (c : ℚ)
    (ocfg : OfflineCfg β) (ds : List β) :
    (train_online { cfg with clip_value := none } n).appliedGrads =
      (train_online { cfg with clip_value := none } n).rawGrads ∧
    (train_online { cfg with clip_value := some c } n).appliedGrads =
      ((train_online { cfg with clip_value := some c } n).rawGrads).map
        (fun g => cfg.clipFn g c) ∧
    (train_offline { ocfg with clip_value := none } ds).appliedGrads =
      (train_offline { ocfg with clip_value := none } ds).rawGrads ∧
    (train_offline { ocfg with clip_value := some c } ds).appliedGrads =
      ((train_offline { ocfg with clip_value := some c } ds).rawGrads).map
        (fun g => ocfg.clipFn g c) := by
  have h1 : clipSel { cfg with clip_value := none } = fun g => g := by
    funext g; rfl
  have h2 : clipSel { cfg with clip_value := some c } = fun g => cfg.clipFn g c := by
    funext g; rfl
  have h3 : clipSelOff { ocfg with clip_value := none } = fun (g : List ℚ) => g := by
    funext g; rfl
  have h4 : clipSelOff { ocfg with clip_value := some c } = fun (g : List ℚ) => ocfg.clipFn g c := by
    funext g; rfl
  refine ⟨?_, ?_, ?_, ?_⟩ <;>
    simp [train_online_trace, train_offline_trace, appTrace, h1, h2, h3, h4,
      List.map_id']

/-! Gradient clipping (`clip_gradients` from `deep_bayes.utils`).

`training.py` imports `clip_gradients` from `.utils`, whose source file is
not part of this repository snapshot, so the function is modelled from the
spec (glossary: "Global-norm clipping: rescaling a gradient vector so its
overall Euclidean norm does not exceed a threshold"; §8: below the
threshold the output equals the input unchanged). -/

/-- The global Euclidean norm of a gradient vector. -/
noncomputable def globalNorm (g : List ℝ) : ℝ :=
  Real.sqrt ((g.map (fun x => x ^ 2)).sum)

/-- Modelled from the spec: `clip_gradients(gradients, clip_value,
clip_method)` for the default `global_norm` method.  Missing source:
`deep_bayes/utils.py`.  The vector is rescaled by `clip_value / norm`
when its global Euclidean norm exceeds `clip_value`, and returned
unchanged otherwise. -/
noncomputable def clip_gradients (g : List ℝ) (clip_value : ℝ) : List ℝ :=
  if globalNorm g ≤ clip_value then g else g.map (fun x => x * (clip_value / globalNorm g))

lemma sumSq_nonneg (g : List ℝ) : 0 ≤ (g.map (fun x => x ^ 2)).sum := by
  apply List.sum_nonneg
  intro x hx
  obtain ⟨a, _, rfl⟩ := List.mem_map.1 hx
  exact sq_nonneg a

lemma globalNorm_nonneg (g : List ℝ) : 0 ≤ globalNorm g := Real.sqrt_nonneg _

lemma globalNorm_map_mul (g : List ℝ) (k : ℝ) :
    globalNorm (g.map (fun x => x * k)) = |k| * globalNorm g := by
  unfold globalNorm
  rw [List.map_map]
  have h1 : ((fun x => x ^ 2) ∘ fun x => x * k) = fun x => x ^ 2 * k ^ 2 := by
    funext x; simp [mul_pow]
  rw [h1, List.sum_map_mul_right, Real.sqrt_mul (sumSq_nonneg g), Real.sqrt_sq_eq_abs,
    mul_comm]

/-- C6: for the default `global_norm` clipping method with a positive
threshold, a gradient vector whose global Euclidean norm exceeds
`clip_value` is rescaled to have global norm exactly `clip_value`, and a
vector whose norm is below `clip_value` is returned unchanged. -/
theorem clip_gradients_global_norm_spec (g : List ℝ) (c : ℝ) (hc : 0 < c) :
    (c < globalNorm g → globalNorm (clip_gradients g c) = c) ∧
    (globalNorm g < c → clip_gradients g c = g) := by
  constructor
  · intro h
    have hg0 : (0 : ℝ) < globalNorm g := lt_trans hc h
    unfold clip_gradients
    rw [if_neg (not_le.2 h), globalNorm_map_mul,
      abs_of_nonneg (div_nonneg hc.le (globalNorm_nonneg g)),
      div_mul_cancel₀ _ (ne_of_gt hg0)]
  · intro h
    unfold clip_gradients
    rw [if_pos h.le]

/-- Witness for C6 at the gradient vector `[3, 4]` (global norm `5`) and
threshold `1`. -/
theorem clip_gradients_global_norm_spec_witness :
    (0 : ℝ) < 1 ∧ 1 < globalNorm [3, 4] ∧ globalNorm (clip_gradients [3, 4] 1) = 1 := by
  have h25 : ([(3 : ℝ), 4].map (fun x => x ^ 2)).sum = 25 := by norm_num
  have h5 : globalNorm [(3 : ℝ), 4] = 5 := by
    unfold globalNorm
    rw [h25, show (25 : ℝ) = 5 ^ 2 by norm_num, Real.sqrt_sq (by norm_num : (0 : ℝ) ≤ 5)]
  refine ⟨one_pos, by rw [h5]; norm_num, ?_⟩
  exact (clip_gradients_global_norm_spec [3, 4] 1 one_pos).1 (by rw [h5]; norm_num)

end DeepBayes

namespace BayesFlow

/-! Diagnostics model (`bayesflow/diagnostics.py`).

Numpy arrays are modelled as shape-carrying structures with a total entry
function; entries are exact rationals. -/

/-- A 2-d array (`prior_samples` has shape `(n_data_sets, n_params)`). -/
structure Arr2 where
  n0 : ℕ
  n1 : ℕ
  data : ℕ → ℕ → ℚ

/-- A 3-d array (`post_samples` has shape
`(n_data_sets, n_post_draws, n_params)`). -/
structure Arr3 where
  n0 : ℕ
  n1 : ℕ
  n2 : ℕ
  data : ℕ → ℕ → ℕ → ℚ

/-- Line 176 of `plot_sbc`:
`ranks = np.sum(post_samples < prior_samples[:, np.newaxis, :], axis=1)`,
the `(i, j)` entry — the broadcast comparison summed (as 0/1) over the
posterior-draw axis. -/
def sbc_rank (post : Arr3) (prior : Arr2) (i j : ℕ) : ℕ :=
  ((List.range post.n1).map (fun d => if post.data i d j < prior.data i j then 1 else 0)).sum

lemma sum_ite_one_eq_countP (P : ℕ → Prop) [DecidablePred P] (l : List ℕ) :
    (l.map (fun d => if P d then (1 : ℕ) else 0)).sum = l.countP (fun d => decide (P d)) := by
  induction l with
  | nil => rfl
  | cons a t ih => by_cases h : P a <;> simp [List.countP_cons, ih, h, Nat.add_comm]

/-- C3: each rank statistic of `plot_sbc` equals the number of posterior
draws strictly below the corresponding true (prior) value, and therefore
lies in `[0, n_post_draws]` (the upper bound; the lower bound is inherent
to `ℕ`). -/
theorem sbc_rank_counts_draws_below (post : Arr3) (prior : Arr2) (i j : ℕ) :
    sbc_rank post prior i j =
      (List.range post.n1).countP (fun d => decide (post.data i d j < prior.data i j)) ∧
    sbc_rank post prior i j ≤ post.n1 := by
  have h := sum_ite_one_eq_countP (fun d => post.data i d j < prior.data i j)
    (List.range post.n1)
  refine ⟨h, ?_⟩
  rw [sbc_rank, h]
  calc (List.range post.n1).countP (fun d => decide (post.data i d j < prior.data i j)) ≤
      (List.range post.n1).length := List.countP_le_length _
    _ = post.n1 := List.length_range post.n1

/-- Line 65 of `plot_recovery`: `est = point_agg(post_samples, axis=1)`,
the aggregator applied along the posterior-draw axis. -/
def point_est (agg : List ℚ → ℚ) (post : Arr3) : Arr2 :=
  ⟨post.n0, post.n2, fun i j => agg ((List.range post.n1).map (fun d => post.data i d j))⟩

/-- C8: with a single posterior draw per dataset, the point estimate
computed by the default aggregator `np.mean` (which acts as the identity
on one draw) equals the corresponding input draw exactly. -/
theorem point_est_identity_single_draw (post : Arr3) (h : post.n1 = 1) (i j : ℕ) :
    (point_est DeepBayes.npMean post).data i j = post.data i 0 j := by
  have h1 : List.range 1 = [0] := rfl
  simp [point_est, h, DeepBayes.npMean, h1]

/-- Concrete single-draw posterior array for the C8 witness. -/
def postSingle : Arr3 := ⟨2, 1, 2, fun i _ j => (i : ℚ) * 10 + j⟩

/-- Witness for C8 on a concrete `2 × 1 × 2` posterior array. -/
theorem point_est_identity_single_draw_witness :
    postSingle.n1 = 1 ∧
      (point_est DeepBayes.npMean postSingle).data 0 1 = postSingle.data 0 0 1 :=
  ⟨rfl, point_est_identity_single_draw postSingle rfl 0 1⟩

/-! The binomial confidence band of `plot_sbc` (lines 179-180).

`endpoints = binom.interval(binomial_interval, N, 1 / (num_bins+1))` with
`N = int(prior_samples.shape[0])`.  `scipy.stats.binom` is modelled
exactly over `ℚ`: the discrete percent-point function `ppf(q)` is the
smallest `k` with `cdf(k) ≥ q`, and `interval(c)` is
`(ppf((1-c)/2), ppf((1+c)/2))`. -/

/-- Binomial probability mass function. -/
def binomPMF (n : ℕ) (p : ℚ) (k : ℕ) : ℚ :=
  (n.choose k : ℚ) * p ^ k * (1 - p) ^ (n - k)

/-- Binomial cumulative distribution function at `k`. -/
def binomCDF (n : ℕ) (p : ℚ) (k : ℕ) : ℚ :=
  ((List.range (k + 1)).map (binomPMF n p)).sum

/-- The scipy discrete percent-point function: the least `k ∈ [0, n]` with
`cdf(k) ≥ q`. -/
def binomPPF (q : ℚ) (n : ℕ) (p : ℚ) : ℕ :=
  (((List.range (n + 1)).filter (fun k => q ≤ binomCDF n p k)).head?).getD n

/-- The central interval `scipy.stats.binom.interval(conf, n, p)`. -/
def binomInterval (conf : ℚ) (n : ℕ) (p : ℚ) : ℕ × ℕ :=
  (binomPPF ((1 - conf) / 2) n p, binomPPF ((1 + conf) / 2) n p)

/-- Line 180 of `plot_sbc`: the confidence-band endpoints computed by the
code, with success probability `1 / (num_bins + 1)`. -/
def sbc_endpoints (conf : ℚ) (N : ℕ) (num_bins : ℕ) : ℕ × ℕ :=
  binomInterval conf N (1 / ((num_bins : ℚ) + 1))

/-- The endpoints as the claim words them: success probability equal to
the expected per-bin probability `1 / num_bins` of the `num_bins`
histogram bins. -/
def sbc_endpoints_claimed (conf : ℚ) (N : ℕ) (num_bins : ℕ) : ℕ × ℕ :=
  binomInterval conf N (1 / (num_bins : ℚ))

/-- C4 (counterexample): with the default confidence `0.95`, `N = 5`
datasets and `num_bins = 2`, the code computes the interval for success
probability `1/3`, giving `(0, 4)`, while the claimed probability `1/2`
gives `(0, 5)`: the claim is false on the code. -/
theorem sbc_endpoints_not_one_over_bins :
    sbc_endpoints (19 / 20) 5 2 ≠ sbc_endpoints_claimed (19 / 20) 5 2 := by
  have hL : sbc_endpoints (19 / 20) 5 2 = (0, 4) := by
    norm_num [sbc_endpoints, binomInterval, binomPPF, binomCDF, binomPMF,
      List.range_succ, Nat.choose, Prod.mk.injEq]
  have hR : sbc_endpoints_claimed (19 / 20) 5 2 = (0, 5) := by
    norm_num [sbc_endpoints_claimed, binomInterval, binomPPF, binomCDF, binomPMF,
      List.range_succ, Nat.choose, Prod.mk.injEq]
  rw [hL, hR]
  simp

lemma list_sum_range_eq_finset (f : ℕ → ℚ) (n : ℕ) :
    ((List.range n).map f).sum = ∑ k ∈ Finset.range n, f k := by
  induction n with
  | zero => simp
  | succ n ih =>
    rw [List.range_succ, List.map_append, List.sum_append, Finset.sum_range_succ, ih]
    simp

lemma binomCDF_self (n : ℕ) (p : ℚ) : binomCDF n p n = 1 := by
  unfold binomCDF binomPMF
  rw [list_sum_range_eq_finset]
  have h : (p + (1 - p)) ^ n =
      ∑ k ∈ Finset.range (n + 1), p ^ k * (1 - p) ^ (n - k) * (n.choose k : ℚ) :=
    add_pow p (1 - p) n
  have h2 : p + (1 - p) = 1 := by ring
  rw [h2, one_pow] at h
  have h3 : ∑ k ∈ Finset.range (n + 1), (n.choose k : ℚ) * p ^ k * (1 - p) ^ (n - k) =
      ∑ k ∈ Finset.range (n + 1), p ^ k * (1 - p) ^ (n - k) * (n.choose k : ℚ) :=
    Finset.sum_congr rfl (fun k _ => by ring)
  rw [h3, ← h]

lemma filter_range_head_least (P : ℕ → Prop) [DecidablePred P] (n : ℕ) (hn : P n) :
    ∃ a, (((List.range (n + 1)).filter (fun k => P k)).head?) = some a ∧
      P a ∧ a ≤ n ∧ ∀ k < a, ¬ P k := by
  set l := (List.range (n + 1)).filter (fun k => decide (P k)) with hl
  have hmem : n ∈ l := by
    rw [hl]
    exact List.mem_filter.2 ⟨List.mem_range.2 (Nat.lt_succ_self n), by simpa using hn⟩
  have hne : l ≠ [] := List.ne_nil_of_mem hmem
  obtain ⟨a, t, hat⟩ := List.exists_cons_of_ne_nil hne
  have hal : a ∈ l := by rw [hat]; exact List.mem_cons_self a t
  have haf := List.mem_filter.1 hal
  refine ⟨a, by rw [hat]; rfl, by simpa using haf.2, Nat.lt_succ_iff.1 (List.mem_range.1 haf.1), ?_⟩
  intro k hk hPk
  have hkl : k ∈ l := by
    rw [hl]
    refine List.mem_filter.2 ⟨List.mem_range.2 ?_, by simpa using hPk⟩
    have := Nat.lt_succ_iff.1 (List.mem_range.1 haf.1)
    omega
  have hpw : l.Pairwise (· < ·) :=
    List.Pairwise.sublist (List.filter_sublist _) (List.pairwise_lt_range _)
  rw [hat] at hpw hkl
  rcases List.mem_cons.1 hkl with rfl | hmem2
  · omega
  · have : a < k := (List.pairwise_cons.1 hpw).1 k hmem2
    omega

lemma binomPPF_least (q : ℚ) (n : ℕ) (p : ℚ) (hq : q ≤ 1) :
    binomPPF q n p ≤ n ∧ q ≤ binomCDF n p (binomPPF q n p) ∧
      ∀ k < binomPPF q n p, binomCDF n p k < q := by
  have hn : q ≤ binomCDF n p n := by rw [binomCDF_self]; exact hq
  obtain ⟨a, ha, hPa, han, hleast⟩ :=
    filter_range_head_least (fun k => q ≤ binomCDF n p k) n hn
  unfold binomPPF
  rw [ha]
  simp only [Option.getD_some]
  exact ⟨han, hPa, fun k hk => not_le.1 (hleast k hk)⟩

/-- C4 (amended): the confidence-band endpoints of `plot_sbc` are the
central binomial interval with `N = prior_samples.shape[0]` trials and
success probability `1 / (num_bins + 1)`: the lower endpoint is the least
`k` whose CDF reaches `(1 - conf)/2` and the upper endpoint the least `k`
whose CDF reaches `(1 + conf)/2`, both within `[0, N]`. -/
theorem sbc_endpoints_characterization (conf : ℚ) (N num_bins : ℕ)
    (h0 : 0 < conf) (h1 : conf < 1) :
    (sbc_endpoints conf N num_bins).1 ≤ N ∧
    (1 - conf) / 2 ≤ binomCDF N (1 / ((num_bins : ℚ) + 1)) (sbc_endpoints conf N num_bins).1 ∧
    (∀ k < (sbc_endpoints conf N num_bins).1,
      binomCDF N (1 / ((num_bins : ℚ) + 1)) k < (1 - conf) / 2) ∧
    (sbc_endpoints conf N num_bins).2 ≤ N ∧
    (1 + conf) / 2 ≤ binomCDF N (1 / ((num_bins : ℚ) + 1)) (sbc_endpoints conf N num_bins).2 ∧
    (∀ k < (sbc_endpoints conf N num_bins).2,
      binomCDF N (1 / ((num_bins : ℚ) + 1)) k < (1 + conf) / 2) := by
  have hq1 : (1 - conf) / 2 ≤ 1 := by linarith
  have hq2 : (1 + conf) / 2 ≤ 1 := by linarith
  obtain ⟨a1, b1, c1⟩ := binomPPF_least ((1 - conf) / 2) N (1 / ((num_bins : ℚ) + 1)) hq1
  obtain ⟨a2, b2, c2⟩ := binomPPF_least ((1 + conf) / 2) N (1 / ((num_bins : ℚ) + 1)) hq2
  exact ⟨a1, b1, c1, a2, b2, c2⟩

/-- Witness for C4 (amended) at confidence `0.95`, `N = 5`, `num_bins = 2`. -/
theorem sbc_endpoints_characterization_witness :
    0 < (19 / 20 : ℚ) ∧ (19 / 20 : ℚ) < 1 ∧
    ((sbc_endpoints (19 / 20) 5 2).1 ≤ 5 ∧
     (1 - 19 / 20) / 2 ≤ binomCDF 5 (1 / (((2 : ℕ) : ℚ) + 1)) (sbc_endpoints (19 / 20) 5 2).1 ∧
     (∀ k < (sbc_endpoints (19 / 20) 5 2).1,
       binomCDF 5 (1 / (((2 : ℕ) : ℚ) + 1)) k < (1 - 19 / 20) / 2) ∧
     (sbc_endpoints (19 / 20) 5 2).2 ≤ 5 ∧
     (1 + 19 / 20) / 2 ≤ binomCDF 5 (1 / (((2 : ℕ) : ℚ) + 1)) (sbc_endpoints (19 / 20) 5 2).2 ∧
     (∀ k < (sbc_endpoints (19 / 20) 5 2).2,
       binomCDF 5 (1 / (((2 : ℕ) : ℚ) + 1)) k < (1 + 19 / 20) / 2)) :=
  ⟨by norm_num, by norm_num,
    sbc_endpoints_characterization (19 / 20) 5 2 (by norm_num) (by norm_num)⟩

/-! Python failure model for the plotting loops.

`plt.subplots(n_row, n_col)` returns a single `Axes` object when the grid
has one cell and an array of axes otherwise.  Integer indexing succeeds on
an array (within bounds) and raises `TypeError` on a single `Axes`;
`set_title` exists on a single `Axes` but not on an array or flat
iterator (`AttributeError`); `.flat` exists on an array but not on a
single `Axes`.  Column selection `arr[:, j]` raises `IndexError` when `j`
is out of bounds, and `np.ndarray.min()` raises `ValueError` on an empty
array. -/

/-- Python-level errors surfaced by the plotting code. -/
inductive PyErr
  | typeError
  | indexError
  | attributeError
  | valueError

/-- The object bound to the axes variable: a single `Axes` or an
array/flat iterator of `cells` axes. -/
inductive AxObj
  | axes
  | axArray (cells : ℕ)

/-- Figure creation `plt.subplots(n_row, n_col)`. -/
def subplots (n_row n_col : ℕ) : AxObj :=
  if n_row * n_col ≤ 1 then AxObj.axes else AxObj.axArray (n_row * n_col)

/-- Indexing `ax[j]`. -/
def axGet : AxObj → ℕ → Except PyErr AxObj
  | AxObj.axes, _ => Except.error PyErr.typeError
  | AxObj.axArray c, j => if j < c then Except.ok AxObj.axes else Except.error PyErr.indexError

/-- Attribute call `ax.set_title(...)`. -/
def axSetTitle : AxObj → Except PyErr Unit
  | AxObj.axes => Except.ok ()
  | AxObj.axArray _ => Except.error PyErr.attributeError

/-- Attribute access `axarr.flat`. -/
def axFlat : AxObj → Except PyErr AxObj
  | AxObj.axes => Except.error PyErr.attributeError
  | AxObj.axArray c => Except.ok (AxObj.axArray c)

/-- The number of cells enumerated by `enumerate(axarr.flat)`. -/
def axCells : AxObj → ℕ
  | AxObj.axes => 1
  | AxObj.axArray c => c

/-- Row count `n_row = int(np.ceil(n / 6))`. -/
def nRowOf (n : ℕ) : ℕ := (n + 5) / 6

/-- Column count `n_col = int(np.ceil(n / n_row))`. -/
def nColOf (n : ℕ) : ℕ := (n + nRowOf n - 1) / nRowOf n

/-- The total number of subplot grid cells. -/
def gridCells (n : ℕ) : ℕ := nRowOf n * nColOf n

/-- A Python `for` loop whose body may raise: runs the body on each index
in order, stopping at the first error. -/
def exRun (f : ℕ → Except PyErr Unit) : List ℕ → Except PyErr Unit
  | [] => Except.ok ()
  | j :: js =>
    match f j with
    | Except.error e => Except.error e
    | Except.ok _ => exRun f js

lemma exRun_append_ok (f : ℕ → Except PyErr Unit) (l₁ l₂ : List ℕ)
    (h : ∀ j ∈ l₁, f j = Except.ok ()) :
    exRun f (l₁ ++ l₂) = exRun f l₂ := by
  induction l₁ with
  | nil => rfl
  | cons a t ih =>
    have ha := h a (List.mem_cons_self a t)
    simp [exRun, ha, ih (fun j hj => h j (List.mem_cons_of_mem a hj))]

lemma exRun_error {e : PyErr} (f : ℕ → Except PyErr Unit) (j : ℕ) (js : List ℕ)
    (h : f j = Except.error e) : exRun f (j :: js) = Except.error e := by
  simp [exRun, h]

lemma ceilDiv_ge (a b : ℕ) (hb : 0 < b) : a ≤ b * ((a + b - 1) / b) := by
  have h1 := Nat.div_add_mod (a + b - 1) b
  have h2 := Nat.mod_lt (a + b - 1) hb
  generalize hm : (a + b - 1) % b = m at h1 h2
  generalize ht : b * ((a + b - 1) / b) = t at h1 ⊢
  omega

lemma nRowOf_pos (n : ℕ) (hn : 0 < n) : 0 < nRowOf n := by
  unfold nRowOf; omega

lemma le_gridCells (n : ℕ) (hn : 0 < n) : n ≤ gridCells n := by
  unfold gridCells nColOf
  exact ceilDiv_ge n (nRowOf n) (nRowOf_pos n hn)

lemma subplots_eq_array (n : ℕ) (h : 2 ≤ gridCells n) :
    subplots (nRowOf n) (nColOf n) = AxObj.axArray (gridCells n) := by
  unfold gridCells at h ⊢
  unfold subplots
  rw [if_neg (by omega)]

/-! Model of `plot_calibration_curves` (lines 202-256). -/

/-- The loop body of `plot_calibration_curves`: the per-model statements
index the axes collection (`ax[j].plot(...)` etc.), and the final
title-setting statement (line 254) calls `set_title` on the collection
`ax` itself rather than on `ax[j]`. -/
def calibBody (ax : AxObj) (j : ℕ) : Except PyErr Unit :=
  match axGet ax j with
  | Except.error e => Except.error e
  | Except.ok _ => axSetTitle ax

/-- Model of `plot_calibration_curves(m_true, m_pred, ...)` as a function of
`n_models = m_pred.shape[-1]` (the per-model calibration data from the
external `expected_calibration_error` collaborator does not affect
control flow). -/
def plot_calibration_curves (n_models : ℕ) : Except PyErr Unit :=
  match (if 1 < nRowOf n_models
         then axFlat (subplots (nRowOf n_models) (nColOf n_models))
         else Except.ok (subplots (nRowOf n_models) (nColOf n_models))) with
  | Except.error e => Except.error e
  | Except.ok ax => exRun (calibBody ax) (List.range n_models)

lemma ax_of_two_le (n : ℕ) (h : 2 ≤ gridCells n) :
    (if 1 < nRowOf n
     then axFlat (subplots (nRowOf n) (nColOf n))
     else Except.ok (subplots (nRowOf n) (nColOf n))) =
      Except.ok (AxObj.axArray (gridCells n)) := by
  rw [subplots_eq_array n h]
  by_cases hr : 1 < nRowOf n
  · rw [if_pos hr]; rfl
  · rw [if_neg hr]

/-- C9: for every input with at least two models,
`plot_calibration_curves` raises an uncaught `AttributeError` (at the
title-setting statement, which addresses the axes collection) before it
can return a figure. -/
theorem plot_calibration_curves_attr_error (n : ℕ) (hn : 2 ≤ n) :
    plot_calibration_curves n = Except.error PyErr.attributeError := by
  have hc : 2 ≤ gridCells n := le_trans hn (le_gridCells n (by omega))
  unfold plot_calibration_curves
  rw [ax_of_two_le n hc]
  show exRun (calibBody (AxObj.axArray (gridCells n))) (List.range n) =
    Except.error PyErr.attributeError
  obtain ⟨m, rfl⟩ : ∃ m, n = m + 1 := ⟨n - 1, by omega⟩
  rw [List.range_succ_eq_map]
  apply exRun_error
  have h0c : 0 < gridCells (m + 1) := by omega
  simp only [calibBody]
  rw [show axGet (AxObj.axArray (gridCells (m + 1))) 0 = Except.ok AxObj.axes from by
    simp only [axGet]; rw [if_pos h0c]]
  rfl

/-- Witness for C9 at `n_models = 2`. -/
theorem plot_calibration_curves_attr_error_witness :
    2 ≤ 2 ∧ plot_calibration_curves 2 = Except.error PyErr.attributeError :=
  ⟨le_refl 2, plot_calibration_curves_attr_error 2 (le_refl 2)⟩

/-! Model of `plot_recovery` (lines 23-122). -/

/-- Numpy column selection `a[:, j]`. -/
def getCol2 (a : Arr2) (j : ℕ) : Except PyErr (List ℚ) :=
  if j < a.n1 then Except.ok ((List.range a.n0).map (fun i => a.data i j))
  else Except.error PyErr.indexError

/-- Minimum `np.ndarray.min()` (raises on an empty array). -/
def npMin : List ℚ → Except PyErr ℚ
  | [] => Except.error PyErr.valueError
  | x :: xs => Except.ok (xs.foldl min x)

/-- Python list indexing `l[i]`. -/
def listGet {α : Type} (l : List α) (i : ℕ) : Except PyErr α :=
  if h : i < l.length then Except.ok (l.get ⟨i, h⟩) else Except.error PyErr.indexError

/-- The loop body of `plot_recovery` over grid-cell index `i`: the
errorbar call selects column `i` of the true values, the point estimates
and the uncertainties, the axis-limit computation takes minima of the
columns, and the title indexes `param_names[i]`. -/
def recoveryBody (prior est u : Arr2) (names : List String) (i : ℕ) : Except PyErr Unit :=
  match getCol2 prior i with
  | Except.error e => Except.error e
  | Except.ok pc =>
    match getCol2 est i with
    | Except.error e => Except.error e
    | Except.ok ec =>
      match getCol2 u i with
      | Except.error e => Except.error e
      | Except.ok _uc =>
        match npMin pc with
        | Except.error e => Except.error e
        | Except.ok _ =>
          match npMin ec with
          | Except.error e => Except.error e
          | Except.ok _ =>
            match listGet names i with
            | Except.error e => Except.error e
            | Except.ok _ => Except.ok ()

/-- Model of `plot_recovery(post_samples, prior_samples, point_agg, uncertainty_agg)`
with default-generated parameter names: aggregates along the draw axis,
lays out the subplot grid from `n_params = prior_samples.shape[-1]` and
iterates over every cell of `enumerate(axarr.flat)`. -/
def plot_recovery (pagg uagg : List ℚ → ℚ) (post : Arr3) (prior : Arr2) :
    Except PyErr Unit :=
  match axFlat (subplots (nRowOf prior.n1) (nColOf prior.n1)) with
  | Except.error e => Except.error e
  | Except.ok ax =>
    exRun
      (recoveryBody prior (point_est pagg post) (point_est uagg post)
        ((List.range prior.n1).map (fun i => "p_" ++ toString (i + 1))))
      (List.range (axCells ax))

lemma getCol2_ok (a : Arr2) (j : ℕ) (h : j < a.n1) :
    getCol2 a j = Except.ok ((List.range a.n0).map (fun i => a.data i j)) := by
  unfold getCol2; rw [if_pos h]

lemma getCol2_err (a : Arr2) (j : ℕ) (h : ¬j < a.n1) :
    getCol2 a j = Except.error PyErr.indexError := by
  unfold getCol2; rw [if_neg h]

lemma npMin_ok_of_pos (a : Arr2) (j : ℕ) (h : 0 < a.n0) :
    ∃ v, npMin ((List.range a.n0).map (fun i => a.data i j)) = Except.ok v := by
  obtain ⟨r, hr⟩ : ∃ r, a.n0 = r + 1 := ⟨a.n0 - 1, by omega⟩
  rw [hr, List.range_succ_eq_map, List.map_cons]
  exact ⟨_, rfl⟩

lemma listGet_ok {α : Type} (l : List α) (i : ℕ) (h : i < l.length) :
    ∃ v, listGet l i = Except.ok v := by
  unfold listGet; rw [dif_pos h]; exact ⟨_, rfl⟩

lemma recoveryBody_ok (prior est u : Arr2) (names : List String) (j : ℕ)
    (hj1 : j < prior.n1) (hj2 : j < est.n1) (hj3 : j < u.n1)
    (hp : 0 < prior.n0) (he : 0 < est.n0) (hnames : j < names.length) :
    recoveryBody prior est u names j = Except.ok () := by
  obtain ⟨v1, hv1⟩ := npMin_ok_of_pos prior j hp
  obtain ⟨v2, hv2⟩ := npMin_ok_of_pos est j he
  obtain ⟨s, hs⟩ := listGet_ok names j hnames
  simp only [recoveryBody, getCol2_ok prior j hj1, getCol2_ok est j hj2,
    getCol2_ok u j hj3, hv1, hv2, hs]

/-- C10: whenever the subplot grid of `plot_recovery` contains strictly
more cells than there are parameters, the loop over `enumerate(axarr.flat)`
indexes the parameter axis out of bounds and the call raises an uncaught
`IndexError` instead of returning a figure. -/
theorem plot_recovery_index_error (pagg uagg : List ℚ → ℚ) (post : Arr3) (prior : Arr2)
    (hrows : 0 < prior.n0) (h0 : post.n0 = prior.n0) (h2 : post.n2 = prior.n1)
    (hover : prior.n1 < gridCells prior.n1) :
    plot_recovery pagg uagg post prior = Except.error PyErr.indexError := by
  have hP1 : 1 ≤ prior.n1 := by
    by_contra hcon
    have h00 : prior.n1 = 0 := by omega
    rw [h00] at hover
    have hg0 : gridCells 0 = 0 := rfl
    omega
  have hcells2 : 2 ≤ gridCells prior.n1 := by omega
  unfold plot_recovery
  rw [subplots_eq_array prior.n1 hcells2]
  show exRun
      (recoveryBody prior (point_est pagg post) (point_est uagg post)
        ((List.range prior.n1).map (fun i => "p_" ++ toString (i + 1))))
      (List.range (gridCells prior.n1)) = Except.error PyErr.indexError
  have hok : ∀ j ∈ List.range prior.n1,
      recoveryBody prior (point_est pagg post) (point_est uagg post)
        ((List.range prior.n1).map (fun i => "p_" ++ toString (i + 1))) j =
        Except.ok () := by
    intro j hj
    have hjP := List.mem_range.1 hj
    have e1 : (point_est pagg post).n1 = post.n2 := rfl
    have e2 : (point_est uagg post).n1 = post.n2 := rfl
    have e3 : (point_est pagg post).n0 = post.n0 := rfl
    have hnames :
        ((List.range prior.n1).map (fun i => "p_" ++ toString (i + 1))).length =
          prior.n1 := by
      simp
    refine recoveryBody_ok prior _ _ _ j hjP ?_ ?_ hrows ?_ ?_
    · rw [e1]; omega
    · rw [e2]; omega
    · rw [e3, h0]; exact hrows
    · rw [hnames]; exact hjP
  obtain ⟨k, hk⟩ : ∃ k, gridCells prior.n1 = prior.n1 + (k + 1) :=
    ⟨gridCells prior.n1 - prior.n1 - 1, by omega⟩
  rw [hk, List.range_add, exRun_append_ok _ _ _ hok, List.range_succ_eq_map, List.map_cons]
  apply exRun_error
  have hoob : ¬prior.n1 + 0 < prior.n1 := by omega
  simp only [recoveryBody, getCol2_err prior _ hoob]

/-- Concrete seven-parameter input for the C10 witness: one dataset, one
posterior draw, seven parameters, giving a `2 × 4` grid with eight cells. -/
def postSeven : Arr3 := ⟨1, 1, 7, fun _ _ j => (j : ℚ)⟩

/-- Concrete prior draws matching `postSeven`. -/
def priorSeven : Arr2 := ⟨1, 7, fun _ j => (j : ℚ)⟩

/-- Witness for C10 at the smallest overshooting case `n_params = 7`,
whose grid is `2 × 4`. -/
theorem plot_recovery_index_error_witness :
    0 < priorSeven.n0 ∧ postSeven.n0 = priorSeven.n0 ∧ postSeven.n2 = priorSeven.n1 ∧
    priorSeven.n1 < gridCells priorSeven.n1 ∧
    nRowOf 7 = 2 ∧ nColOf 7 = 4 ∧
    plot_recovery DeepBayes.npMean DeepBayes.npMean postSeven priorSeven =
      Except.error PyErr.indexError :=
  ⟨Nat.one_pos, rfl, rfl, by decide, by decide, by decide,
    plot_recovery_index_error DeepBayes.npMean DeepBayes.npMean postSeven priorSeven
      Nat.one_pos rfl rfl (by decide)⟩

end BayesFlow
